import Mathlib

/-!
Verification of the batch background-removal pipeline of `src/app.py`:
the cached model-session loader (`load_ai_session`, lines 89-92), the
per-image processor (`process_single_image`, lines 29-44), the batch
loop with progress reporting and per-item error isolation (lines
107-133), the session-state result store (lines 25-26, 112-127), and
the ZIP export block (lines 141-148).

External capabilities (PIL decoding via `Image.open`, the rembg `remove`
and `new_session`, PNG encoding via `Image.save`) are abstracted as an
environment of possibly-failing functions.  Streamlit UI emissions
(`st.progress` creation and updates, `st.error`, `st.success`) are
recorded as an event trace, and `st.session_state.processed_images`
(a Python dict, insertion-ordered) is an association list.
-/

set_option autoImplicit false

namespace AppModel

/-- Raw byte content of an uploaded or produced file. -/
abbrev Bytes := List Nat

/-- A decoded in-memory image (abstract pixel data). -/
abbrev Image := List Nat

/-- An uploaded file: original filename plus raw byte content
(the Streamlit `UploadedFile`: `.name` and the readable content). -/
structure ImageFile where
  name : String
  content : Bytes
deriving DecidableEq, Repr

/-- Environment of external capabilities consumed by `src/app.py`.
`loadFailure m = some e` means `new_session m` raises an exception with
message `e`; `decode` models `PIL.Image.open` on the raw file bytes;
`segment s img a` models `rembg.remove(img, session=s, alpha_matting=a)`
for the session handle `s`; `encodePNG` models
`output_image.save(buf, format=PNG)` followed by `buf.getvalue()`.
Each may fail with an exception message. -/
structure Env where
  loadFailure : String → Option String
  decode : Bytes → Except String Image
  segment : Nat → Image → Bool → Except String Image
  encodePNG : Image → Except String Bytes

/-- UI emissions of the batch block, in program order:
`progressInit` is the creation of the progress widget at value 0
(`st.progress(0, text=...)`, line 109); `errorMsg` is `st.error`
(line 43); `progress` is a `progress_bar.progress(...)` update with a
fractional value (line 130); `successMsg n` is the final
`st.success(f"... processed {n} image(s)!")` (line 133). -/
inductive Event where
  | progressInit : Event
  | errorMsg : String → Event
  | progress : ℚ → Event
  | successMsg : Nat → Event
deriving DecidableEq, Repr

/-- The try-block of `process_single_image` (lines 31-41): decode the
bytes, run segmentation with the session and the alpha-matting option,
then encode the output image to PNG bytes.  Any of the three external
calls may raise; the first raise aborts the block. -/
def processExc (env : Env) (f : ImageFile) (session : Nat) (alpha : Bool) :
    Except String (Image × Bytes) :=
  match env.decode f.content with
  | Except.error e => Except.error e
  | Except.ok input =>
      match env.segment session input alpha with
      | Except.error e => Except.error e
      | Except.ok output =>
          match env.encodePNG output with
          | Except.error e => Except.error e
          | Except.ok b => Except.ok (output, b)

/-- Function `process_single_image` (lines 29-44): on success it
returns the pair `(output_image, byte_im)`; on any exception `e` in the
try-block it emits the UI error message
`Error processing <image_file.name>: <str(e)>` (line 43) and returns
`(None, None)`.  The second component of the result is the list of UI
events emitted by the call. -/
def process_single_image (env : Env) (f : ImageFile) (session : Nat) (alpha : Bool) :
    (Option Image × Option Bytes) × List Event :=
  match processExc env f session alpha with
  | Except.ok r => ((some r.1, some r.2), [])
  | Except.error e =>
      ((none, none), [Event.errorMsg ("Error processing " ++ f.name ++ ": " ++ e)])

/-- One value of `st.session_state.processed_images`: the dict literal
built at lines 123-127 with keys `original_name`, `image`, `bytes`. -/
structure ProcessedResult where
  original_name : String
  image : Image
  bytes : Bytes
deriving DecidableEq, Repr

/-- `st.session_state.processed_images`: a Python dict from filename to
`ProcessedResult`, kept in insertion order as an association list. -/
abbrev ResultStore := List (String × ProcessedResult)

/-- Python dict assignment `d[k] = v`: if `k` is already a key, replace
its value in place (the key keeps its original position); otherwise
append the new pair at the end (Python 3.7+ dict insertion order). -/
def storeInsert (store : ResultStore) (k : String) (v : ProcessedResult) : ResultStore :=
  if store.any (fun p => p.1 == k) then
    store.map (fun p => if p.1 == k then (k, v) else p)
  else
    store ++ [(k, v)]

/-- Effect of one loop iteration on the store (lines 121-127): if the
processed image is not `None`, insert the result dict
`{original_name, image, bytes}` under `uploaded_file.name`.  Because
`process_single_image` returns either two non-`None` values or
`(None, None)` (both branches of its body are literal pairs), matching
on both components at once coincides with the test `if processed_img:`
of the source, which looks at the first component alone. -/
def stepStore (env : Env) (session : Nat) (alpha : Bool) (store : ResultStore)
    (f : ImageFile) : ResultStore :=
  match (process_single_image env f session alpha).1 with
  | (some img, some b) => storeInsert store f.name ⟨f.name, img, b⟩
  | _ => store

/-- The per-item loop of lines 116-130: for each file, call
`process_single_image`; store the result on success (lines 121-127,
factored as `stepStore`); then update the progress bar to
`(i + 1) / len(uploaded_files)` (line 130).  The UI events of one
iteration are those emitted by `process_single_image` followed by the
progress update.  `total` is `len(uploaded_files)` and `i` the running
index of `enumerate`. -/
def batchLoop (env : Env) (session : Nat) (alpha : Bool) (total : Nat) :
    List ImageFile → Nat → ResultStore → ResultStore × List Event
  | [], _, store => (store, [])
  | f :: rest, i, store =>
      let r := batchLoop env session alpha total rest (i + 1)
        (stepStore env session alpha store f)
      (r.1, (process_single_image env f session alpha).2 ++
        Event.progress (((i : ℚ) + 1) / (total : ℚ)) :: r.2)

/-- State of the `st.cache_resource` cache backing `load_ai_session`
(lines 89-92): memoized sessions keyed by the `model_name` argument,
plus a counter allocating fresh session handles so that distinct
constructions yield distinct instances. -/
structure CacheState where
  entries : List (String × Nat)
  nextId : Nat
deriving DecidableEq, Repr

/-- Lookup of a memoized session by model name. -/
def findSession (m : String) : List (String × Nat) → Option Nat
  | [] => none
  | (k, v) :: rest => if k = m then some v else findSession m rest

/-- Function `load_ai_session(model_name)` (lines 89-92) under the
memoization semantics of `st.cache_resource` (cached by argument
value): a cached session for `model_name` is returned as-is; otherwise
`new_session(model_name)` runs — if it raises, the error propagates and
nothing is cached; if it returns, the fresh session is stored and
returned.  Fresh handles come from the allocation counter, so each
construction yields a distinct instance. -/
def load_ai_session (env : Env) (m : String) (st : CacheState) :
    Except String (Nat × CacheState) :=
  match findSession m st.entries with
  | some s => Except.ok (s, st)
  | none =>
      match env.loadFailure m with
      | some e => Except.error e
      | none => Except.ok (st.nextId, ⟨st.entries ++ [(m, st.nextId)], st.nextId + 1⟩)

/-- Outcome of one run of the batch block (lines 107-133): the value of
`st.session_state.processed_images` afterwards, the UI event trace, the
uncaught exception of the run if any (Streamlit surfaces it and aborts
the script), and the cache state afterwards. -/
structure RunResult where
  store : ResultStore
  trace : List Event
  fatal : Option String
  cache : CacheState
deriving DecidableEq, Repr

/-- The batch block `if uploaded_files:` (lines 107-133).  With no files
the block is skipped (`[]` is falsy) and the previous store survives.
Otherwise, in program order: the progress widget is created at 0
(line 109); the session is resolved via `load_ai_session` (line 110) —
if that raises, the script aborts there, before the store reset, so the
previous store survives; on success the store is reset to `{}`
(line 113), the per-item loop runs (lines 116-130), and `st.success`
reports the number of stored results (line 133). -/
def runApp (env : Env) (model : String) (alpha : Bool) (prev : ResultStore)
    (cache : CacheState) (files : List ImageFile) : RunResult :=
  if files.isEmpty then ⟨prev, [], none, cache⟩
  else
    match load_ai_session env model cache with
    | Except.error e => ⟨prev, [Event.progressInit], some e, cache⟩
    | Except.ok (s, cache1) =>
        let r := batchLoop env s alpha files.length files 0 []
        ⟨r.1, Event.progressInit :: (r.2 ++ [Event.successMsg r.1.length]), none, cache1⟩

/-- Index of the last dot character in a character list, if any
(Python `str.rfind` on a dot, restricted to found/not-found). -/
def lastDotIdx : List Char → Option Nat
  | [] => none
  | c :: rest =>
      match lastDotIdx rest with
      | some j => some (j + 1)
      | none => if c = '.' then some 0 else none

/-- Model of `pathlib.PurePath(name).stem` for a bare filename
(uploaded names carry no directory part): with `i` the index of the
last dot (Python `name.rfind`), CPython returns `name[:i]` when
`0 < i < len(name) - 1` and `name` unchanged otherwise. -/
def stem (s : String) : String :=
  match lastDotIdx s.data with
  | some i => if 0 < i ∧ i + 1 < s.data.length then String.mk (s.data.take i) else s
  | none => s

/-- One member of the produced ZIP archive.  `data` is the uncompressed
content of the entry (deflate compression is lossless and deterministic
for fixed input, so the decompressed view determines the claims about
contents); `dateTime` is the recorded modification time of the entry:
`ZipFile.writestr` with a string name stamps the entry with
`time.localtime(time.time())[:6]`. -/
structure ZipEntry where
  entryName : String
  data : Bytes
  dateTime : Nat
deriving DecidableEq, Repr

/-- The ZIP export block (lines 141-148): iterate the store in its
stored order and write the `bytes` of each entry under
`f"no_bg_{Path(file_name).stem}.png"`.  `now` is the wall-clock time at
which `writestr` runs, stamped into every entry. -/
def exportArchive (now : Nat) (store : ResultStore) : List ZipEntry :=
  store.map (fun p => ⟨"no_bg_" ++ stem p.1 ++ ".png", p.2.bytes, now⟩)

/-- Values of the per-item progress updates in a trace, in order. -/
def progressValues (tr : List Event) : List ℚ :=
  tr.filterMap (fun e => match e with | Event.progress q => some q | _ => none)

/-- Messages of the `st.error` emissions in a trace, in order: the
per-item failure report of the run. -/
def errorMessages (tr : List Event) : List String :=
  tr.filterMap (fun e => match e with | Event.errorMsg m => some m | _ => none)

/-- Keys of a result store, in stored order. -/
def storeKeys (store : ResultStore) : List String :=
  store.map Prod.fst


/-! ## Concrete instances used in counterexamples and witnesses -/

/-- Environment in which every external call succeeds and both
segmentation and PNG encoding act as the identity on the abstract
image data. -/
def envOk : Env where
  loadFailure := fun _ => none
  decode := fun b => Except.ok b
  segment := fun _ img _ => Except.ok img
  encodePNG := fun img => Except.ok img

/-- Environment in which decoding the byte content `[2]` raises with
message `bad` and everything else succeeds. -/
def envDecodeBad : Env where
  loadFailure := fun _ => none
  decode := fun b => if b = [2] then Except.error "bad" else Except.ok b
  segment := fun _ img _ => Except.ok img
  encodePNG := fun img => Except.ok img

/-- Environment in which decoding succeeds but segmentation of the
image `[2]` raises with message `bad`. -/
def envInferBad : Env where
  loadFailure := fun _ => none
  decode := fun b => Except.ok b
  segment := fun _ img _ => if img = [2] then Except.error "bad" else Except.ok img
  encodePNG := fun img => Except.ok img

/-- Environment in which constructing any model session raises. -/
def envBadLoad : Env where
  loadFailure := fun _ => some "no weights"
  decode := fun b => Except.ok b
  segment := fun _ img _ => Except.ok img
  encodePNG := fun img => Except.ok img

/-- A sample uploaded file. -/
def fileA : ImageFile := ⟨"a.png", [1]⟩

/-- A sample uploaded file whose byte content is `[2]`. -/
def fileB : ImageFile := ⟨"b.png", [2]⟩

/-- A sample uploaded file. -/
def fileC : ImageFile := ⟨"c.png", [3]⟩

/-! ## Helper lemmas about per-item processing -/

theorem process_eq_ok {env : Env} {f : ImageFile} {s : Nat} {a : Bool}
    {r : Image × Bytes} (hp : processExc env f s a = Except.ok r) :
    process_single_image env f s a = ((some r.1, some r.2), []) := by
  unfold process_single_image
  rw [hp]

theorem process_eq_error {env : Env} {f : ImageFile} {s : Nat} {a : Bool}
    {e : String} (hp : processExc env f s a = Except.error e) :
    process_single_image env f s a =
      ((none, none), [Event.errorMsg ("Error processing " ++ f.name ++ ": " ++ e)]) := by
  unfold process_single_image
  rw [hp]

theorem processExc_decode_error {env : Env} {f : ImageFile} (s : Nat) (a : Bool)
    {e : String} (h : env.decode f.content = Except.error e) :
    processExc env f s a = Except.error e := by
  simp only [processExc, h]

theorem processExc_segment_error {env : Env} {f : ImageFile} {s : Nat} {a : Bool}
    {input : Image} {e : String} (hd : env.decode f.content = Except.ok input)
    (hs : env.segment s input a = Except.error e) :
    processExc env f s a = Except.error e := by
  simp only [processExc, hd, hs]

theorem processExc_ok_encode {env : Env} {f : ImageFile} {s : Nat} {a : Bool}
    {i : Image} {b : Bytes} (h : processExc env f s a = Except.ok (i, b)) :
    env.encodePNG i = Except.ok b := by
  unfold processExc at h
  cases hd : env.decode f.content with
  | error e => simp [hd] at h
  | ok input =>
      simp only [hd] at h
      cases hs : env.segment s input a with
      | error e => simp [hs] at h
      | ok output =>
          simp only [hs] at h
          cases he : env.encodePNG output with
          | error e => simp [he] at h
          | ok b2 =>
              simp only [he, Except.ok.injEq, Prod.mk.injEq] at h
              obtain ⟨hi, hb⟩ := h
              rw [← hi, ← hb]
              exact he

theorem process_shape (env : Env) (f : ImageFile) (s : Nat) (a : Bool) :
    ((process_single_image env f s a).1 = (none, none) ∧
      (∃ m, (process_single_image env f s a).2 = [Event.errorMsg m])) ∨
    ∃ i b, (process_single_image env f s a).1 = (some i, some b) ∧
      (process_single_image env f s a).2 = [] ∧ env.encodePNG i = Except.ok b := by
  cases hp : processExc env f s a with
  | error e =>
      left
      rw [process_eq_error hp]
      exact ⟨rfl, ⟨_, rfl⟩⟩
  | ok r =>
      right
      exact ⟨r.1, r.2, by rw [process_eq_ok hp], by rw [process_eq_ok hp],
        processExc_ok_encode (by rw [hp])⟩

/-! ## Helper lemmas about the store, the trace and the loop -/

theorem mem_storeInsert {store : ResultStore} {k : String} {v : ProcessedResult}
    {p : String × ProcessedResult} (hp : p ∈ storeInsert store k v) :
    p = (k, v) ∨ p ∈ store := by
  unfold storeInsert at hp
  split at hp
  · obtain ⟨q, hq, hqe⟩ := List.mem_map.mp hp
    by_cases hqk : q.1 = k
    · left
      rw [← hqe]
      simp [hqk]
    · right
      rw [← hqe]
      simpa [hqk] using hq
  · rcases List.mem_append.mp hp with h | h
    · right
      exact h
    · left
      simpa using h

theorem mem_storeKeys {store : ResultStore} {k : String} :
    k ∈ storeKeys store ↔ ∃ p ∈ store, p.1 = k := by
  unfold storeKeys
  simp [List.mem_map]

theorem mem_storeKeys_insert {store : ResultStore} {k k1 : String}
    {v : ProcessedResult} (h : k1 ∈ storeKeys (storeInsert store k v)) :
    k1 ∈ storeKeys store ∨ k1 = k := by
  obtain ⟨p, hp, hpk⟩ := List.mem_map.mp h
  rcases mem_storeInsert hp with h1 | h1
  · right
    rw [← hpk, h1]
  · left
    exact List.mem_map.mpr ⟨p, h1, hpk⟩

theorem progressValues_append (l1 l2 : List Event) :
    progressValues (l1 ++ l2) = progressValues l1 ++ progressValues l2 :=
  List.filterMap_append l1 l2 _

theorem errorMessages_append (l1 l2 : List Event) :
    errorMessages (l1 ++ l2) = errorMessages l1 ++ errorMessages l2 :=
  List.filterMap_append l1 l2 _

theorem progressValues_process (env : Env) (f : ImageFile) (s : Nat) (a : Bool) :
    progressValues (process_single_image env f s a).2 = [] := by
  rcases process_shape env f s a with ⟨h1, m, h2⟩ | ⟨i, b, h1, h2, h3⟩ <;> rw [h2] <;> rfl

theorem batchLoop_nil (env : Env) (s : Nat) (a : Bool) (total : Nat) (i : Nat)
    (store : ResultStore) : batchLoop env s a total [] i store = (store, []) := rfl

theorem batchLoop_cons (env : Env) (s : Nat) (a : Bool) (total : Nat)
    (f : ImageFile) (rest : List ImageFile) (i : Nat) (store : ResultStore) :
    batchLoop env s a total (f :: rest) i store =
      ((batchLoop env s a total rest (i + 1) (stepStore env s a store f)).1,
        (process_single_image env f s a).2 ++
          Event.progress (((i : ℚ) + 1) / (total : ℚ)) ::
            (batchLoop env s a total rest (i + 1) (stepStore env s a store f)).2) := rfl

theorem stepStore_ok {env : Env} {f : ImageFile} {s : Nat} {a : Bool}
    {r : Image × Bytes} (hp : processExc env f s a = Except.ok r)
    (store : ResultStore) :
    stepStore env s a store f = storeInsert store f.name ⟨f.name, r.1, r.2⟩ := by
  unfold stepStore
  rw [process_eq_ok hp]

theorem stepStore_error {env : Env} {f : ImageFile} {s : Nat} {a : Bool}
    {e : String} (hp : processExc env f s a = Except.error e)
    (store : ResultStore) : stepStore env s a store f = store := by
  unfold stepStore
  rw [process_eq_error hp]

theorem batchLoop_store_keys (env : Env) (s : Nat) (a : Bool) (total : Nat)
    (files : List ImageFile) :
    ∀ (i : Nat) (store : ResultStore) (k : String),
      k ∈ storeKeys (batchLoop env s a total files i store).1 →
      k ∈ storeKeys store ∨ k ∈ files.map ImageFile.name := by
  induction files with
  | nil =>
      intro i store k h
      left
      exact h
  | cons f rest ih =>
      intro i store k h
      rw [batchLoop_cons] at h
      rcases ih (i + 1) (stepStore env s a store f) k h with h1 | h1
      · unfold stepStore at h1
        cases hp : processExc env f s a with
        | error e =>
            rw [process_eq_error hp] at h1
            left
            exact h1
        | ok r =>
            rw [process_eq_ok hp] at h1
            rcases mem_storeKeys_insert h1 with h2 | h2
            · left
              exact h2
            · right
              rw [h2]
              exact List.mem_cons_self _ _
      · right
        exact List.mem_cons_of_mem _ h1

theorem runApp_nil (env : Env) (model : String) (alpha : Bool) (prev : ResultStore)
    (cache : CacheState) : runApp env model alpha prev cache [] = ⟨prev, [], none, cache⟩ :=
  rfl

theorem runApp_fatal {env : Env} {model : String} {cache : CacheState} {e : String}
    (alpha : Bool) (prev : ResultStore) {files : List ImageFile}
    (hne : files ≠ [])
    (hl : load_ai_session env model cache = Except.error e) :
    runApp env model alpha prev cache files = ⟨prev, [Event.progressInit], some e, cache⟩ := by
  have hemp : files.isEmpty = false := by
    simpa [List.isEmpty_iff] using hne
  unfold runApp
  rw [hemp]
  simp only [Bool.false_eq_true, if_false, hl]

theorem runApp_ok {env : Env} {model : String} {cache : CacheState} {s : Nat}
    {cache1 : CacheState} (alpha : Bool) (prev : ResultStore) {files : List ImageFile}
    (hne : files ≠ [])
    (hl : load_ai_session env model cache = Except.ok (s, cache1)) :
    runApp env model alpha prev cache files =
      ⟨(batchLoop env s alpha files.length files 0 []).1,
        Event.progressInit :: ((batchLoop env s alpha files.length files 0 []).2 ++
          [Event.successMsg (batchLoop env s alpha files.length files 0 []).1.length]),
        none, cache1⟩ := by
  have hemp : files.isEmpty = false := by
    simpa [List.isEmpty_iff] using hne
  unfold runApp
  rw [hemp]
  simp only [Bool.false_eq_true, if_false, hl]

theorem batchLoop_progress (env : Env) (s : Nat) (a : Bool) (total : Nat)
    (files : List ImageFile) :
    ∀ (i : Nat) (store : ResultStore),
      progressValues (batchLoop env s a total files i store).2 =
        (List.range files.length).map
          (fun j => (((i + j : Nat) : ℚ) + 1) / (total : ℚ)) := by
  induction files with
  | nil =>
      intro i store
      rfl
  | cons f rest ih =>
      intro i store
      rw [batchLoop_cons]
      show progressValues ((process_single_image env f s a).2 ++ _ :: _) = _
      rw [progressValues_append, progressValues_process]
      have hcons : progressValues (Event.progress (((i : ℚ) + 1) / (total : ℚ)) ::
          (batchLoop env s a total rest (i + 1) (stepStore env s a store f)).2) =
          (((i : ℚ) + 1) / (total : ℚ)) ::
            progressValues (batchLoop env s a total rest (i + 1) (stepStore env s a store f)).2 :=
        rfl
      rw [List.nil_append, hcons, ih, List.length_cons, List.range_succ_eq_map,
        List.map_cons, List.map_map]
      refine List.cons_eq_cons.mpr ⟨by norm_num, ?_⟩
      apply List.map_congr_left
      intro j hj
      simp only [Function.comp_apply, Nat.succ_eq_add_one]
      push_cast
      ring

/-! ## Helper lemmas about the session cache -/

/-- Well-formedness of a cache state: every stored handle is below the
allocation counter, and stored handles are pairwise distinct. -/
def CacheWF (st : CacheState) : Prop :=
  (∀ p ∈ st.entries, p.2 < st.nextId) ∧ (st.entries.map Prod.snd).Nodup

theorem findSession_mem {m : String} {v : Nat} {l : List (String × Nat)}
    (h : findSession m l = some v) : (m, v) ∈ l := by
  induction l with
  | nil => simp [findSession] at h
  | cons p rest ih =>
      obtain ⟨pk, pv⟩ := p
      unfold findSession at h
      by_cases hp : pk = m
      · rw [if_pos hp] at h
        injection h with h
        rw [← hp, ← h]
        exact List.mem_cons_self _ _
      · rw [if_neg hp] at h
        exact List.mem_cons_of_mem _ (ih h)

theorem findSession_append_self {m : String} {l : List (String × Nat)} (v : Nat)
    (h : findSession m l = none) : findSession m (l ++ [(m, v)]) = some v := by
  induction l with
  | nil => simp [findSession]
  | cons p rest ih =>
      obtain ⟨pk, pv⟩ := p
      unfold findSession at h
      rw [List.cons_append]
      unfold findSession
      by_cases hp : pk = m
      · rw [if_pos hp] at h
        exact absurd h (by simp)
      · rw [if_neg hp] at h ⊢
        exact ih h

theorem nodup_values_key_eq {l : List (String × Nat)}
    (hnd : (l.map Prod.snd).Nodup) {k1 k2 : String} {v : Nat}
    (h1 : (k1, v) ∈ l) (h2 : (k2, v) ∈ l) : k1 = k2 := by
  induction l with
  | nil => simp at h1
  | cons p rest ih =>
      rw [List.map_cons, List.nodup_cons] at hnd
      obtain ⟨hp, hrest⟩ := hnd
      rcases List.mem_cons.mp h1 with h1e | h1r
      · rcases List.mem_cons.mp h2 with h2e | h2r
        · rw [← h1e] at h2e
          exact (congrArg Prod.fst h2e).symm
        · exfalso
          apply hp
          rw [← h1e]
          exact List.mem_map.mpr ⟨(k2, v), h2r, rfl⟩
      · rcases List.mem_cons.mp h2 with h2e | h2r
        · exfalso
          apply hp
          rw [← h2e]
          exact List.mem_map.mpr ⟨(k1, v), h1r, rfl⟩
        · exact ih hrest h1r h2r

/-! ## Helper lemmas for the stored-entry invariant -/

/-- Invariant of one stored entry: the `original_name` field equals the
key it is stored under, and the byte payload is the PNG encoding of the
stored image. -/
def GoodEntry (env : Env) (p : String × ProcessedResult) : Prop :=
  p.2.original_name = p.1 ∧ env.encodePNG p.2.image = Except.ok p.2.bytes

theorem stepStore_good {env : Env} {s : Nat} {a : Bool} {store : ResultStore}
    {f : ImageFile} (hst : ∀ p ∈ store, GoodEntry env p) :
    ∀ p ∈ stepStore env s a store f, GoodEntry env p := by
  intro p hp
  cases hq : processExc env f s a with
  | error e =>
      rw [stepStore_error hq] at hp
      exact hst p hp
  | ok r =>
      rw [stepStore_ok hq] at hp
      rcases mem_storeInsert hp with h1 | h1
      · rw [h1]
        exact ⟨rfl, processExc_ok_encode (by rw [hq])⟩
      · exact hst p h1

theorem batchLoop_good (env : Env) (s : Nat) (a : Bool) (total : Nat)
    (files : List ImageFile) :
    ∀ (i : Nat) (store : ResultStore),
      (∀ p ∈ store, GoodEntry env p) →
      ∀ p ∈ (batchLoop env s a total files i store).1, GoodEntry env p := by
  induction files with
  | nil =>
      intro i store h
      exact h
  | cons f rest ih =>
      intro i store h
      rw [batchLoop_cons]
      exact ih (i + 1) _ (stepStore_good h)

theorem progressValues_init_cons (l : List Event) :
    progressValues (Event.progressInit :: l) = progressValues l := rfl

theorem progressValues_successMsg (n : Nat) :
    progressValues [Event.successMsg n] = [] := rfl

/-- Inversion of `load_ai_session` on success: either the model was
cached and the state is unchanged, or it was not cached, construction
succeeded, and the returned handle is the fresh allocation. -/
theorem load_inv {env : Env} {m : String} {st : CacheState} {s : Nat}
    {st1 : CacheState} (h : load_ai_session env m st = Except.ok (s, st1)) :
    (findSession m st.entries = some s ∧ st1 = st) ∨
    (findSession m st.entries = none ∧ env.loadFailure m = none ∧
      s = st.nextId ∧ st1 = ⟨st.entries ++ [(m, st.nextId)], st.nextId + 1⟩) := by
  unfold load_ai_session at h
  cases hf : findSession m st.entries with
  | some v =>
      simp only [hf] at h
      obtain ⟨hv, hst⟩ : v = s ∧ st = st1 := by simpa using h
      left
      exact ⟨by rw [hv], hst.symm⟩
  | none =>
      simp only [hf] at h
      cases hlf : env.loadFailure m with
      | some e => simp [hlf] at h
      | none =>
          simp only [hlf] at h
          obtain ⟨hv, hst⟩ : st.nextId = s ∧
              (⟨st.entries ++ [(m, st.nextId)], st.nextId + 1⟩ : CacheState) = st1 := by
            simpa using h
          right
          exact ⟨rfl, rfl, hv.symm, hst.symm⟩

/-! ## Claim theorems -/

/-- Claim C2: starting a new batch wholly replaces the ResultStore.
For every run of the batch block that gets past session resolution
(no fatal error; a batch actually runs, so the file list is nonempty),
every key of the resulting store is a filename of the new batch; in
particular, if the new input set does not contain the key `x.png` that
a previous batch stored, the resulting store does not contain `x.png`:
no entry of the previous store `prev` survives. -/
theorem c2_replacement (env : Env) (model : String) (alpha : Bool) (prev : ResultStore)
    (cache : CacheState) (files : List ImageFile)
    (hne : files ≠ [])
    (hfatal : (runApp env model alpha prev cache files).fatal = none) :
    (∀ k, k ∈ storeKeys (runApp env model alpha prev cache files).store →
        k ∈ files.map ImageFile.name) ∧
    ("x.png" ∉ files.map ImageFile.name →
        "x.png" ∉ storeKeys (runApp env model alpha prev cache files).store) := by
  cases hl : load_ai_session env model cache with
  | error e =>
      rw [runApp_fatal alpha prev hne hl] at hfatal
      exact absurd hfatal (by simp)
  | ok r =>
      obtain ⟨s, cache1⟩ := r
      have hrw := runApp_ok alpha prev hne hl
      constructor
      · intro k hk
        rw [hrw] at hk
        rcases batchLoop_store_keys env s alpha files.length files 0 [] k hk with h | h
        · simp [storeKeys] at h
        · exact h
      · intro hx hmem
        rw [hrw] at hmem
        rcases batchLoop_store_keys env s alpha files.length files 0 [] "x.png" hmem with h | h
        · simp [storeKeys] at h
        · exact hx h

/-- Witness for C2 at a concrete input: batch 1 stored `x.png`; batch 2
consists of `a.png` only, and after it runs the store no longer has a
key `x.png`. -/
theorem c2_replacement_witness :
    ([fileA] : List ImageFile) ≠ [] ∧
    (runApp envOk "u2net" false [("x.png", ⟨"x.png", [9], [9]⟩)] ⟨[], 0⟩ [fileA]).fatal =
      none ∧
    ("x.png" ∉ [fileA].map ImageFile.name →
      "x.png" ∉ storeKeys
        (runApp envOk "u2net" false [("x.png", ⟨"x.png", [9], [9]⟩)] ⟨[], 0⟩ [fileA]).store) :=
  ⟨by decide, rfl,
    (c2_replacement envOk "u2net" false [("x.png", ⟨"x.png", [9], [9]⟩)] ⟨[], 0⟩ [fileA]
      (by decide) rfl).2⟩

/-- Claim C3: exporting a store with entries under `a.png` and `b.jpg`
yields an archive with exactly two entries named `no_bg_a.png` and
`no_bg_b.png` whose contents are the two stored byte payloads, at any
export time; and in general each stored entry is written under
`no_bg_<stem>.png` with its byte payload, in stored order. -/
theorem c3_archive_completeness :
    (∀ (t : Nat) (iX iY : Image) (X Y : Bytes),
        exportArchive t [("a.png", ⟨"a.png", iX, X⟩), ("b.jpg", ⟨"b.jpg", iY, Y⟩)] =
          [⟨"no_bg_a.png", X, t⟩, ⟨"no_bg_b.png", Y, t⟩]) ∧
    (∀ (t : Nat) (store : ResultStore),
        (exportArchive t store).map (fun z => (z.entryName, z.data)) =
          store.map (fun p => ("no_bg_" ++ stem p.1 ++ ".png", p.2.bytes))) := by
  constructor
  · intro t iX iY X Y
    rfl
  · intro t store
    simp [exportArchive, List.map_map]

/-- Claim C4: two files of one batch sharing a filename leave exactly
one store entry under that name, holding the output of the later file
(last-write-wins), assuming both items process successfully. -/
theorem c4_duplicate_overwrite (env : Env) (model : String) (alpha : Bool)
    (prev : ResultStore) (cache : CacheState) (f1 f2 : ImageFile) (s : Nat)
    (cache1 : CacheState) (r1 r2 : Image × Bytes)
    (hl : load_ai_session env model cache = Except.ok (s, cache1))
    (hname : f1.name = f2.name)
    (h1 : processExc env f1 s alpha = Except.ok r1)
    (h2 : processExc env f2 s alpha = Except.ok r2) :
    (runApp env model alpha prev cache [f1, f2]).store =
      [(f2.name, ⟨f2.name, r2.1, r2.2⟩)] := by
  have e1 : stepStore env s alpha [] f1 = [(f1.name, ⟨f1.name, r1.1, r1.2⟩)] := by
    rw [stepStore_ok h1]
    rfl
  have e2 : stepStore env s alpha [(f1.name, ⟨f1.name, r1.1, r1.2⟩)] f2 =
      [(f2.name, ⟨f2.name, r2.1, r2.2⟩)] := by
    rw [stepStore_ok h2]
    unfold storeInsert
    rw [if_pos (by simp [hname])]
    simp [hname]
  rw [runApp_ok alpha prev (by simp) hl]
  show (batchLoop env s alpha ([f1, f2] : List ImageFile).length [f1, f2] 0 []).1 = _
  rw [batchLoop_cons, e1, batchLoop_cons, e2, batchLoop_nil]

/-- Witness for C4 at a concrete input: two uploads named `photo.png`
with different contents; the store ends with one entry holding the
processed output of the second. -/
theorem c4_duplicate_overwrite_witness :
    load_ai_session envOk "u2net" ⟨[], 0⟩ = Except.ok (0, ⟨[("u2net", 0)], 1⟩) ∧
    (⟨"photo.png", [1]⟩ : ImageFile).name = (⟨"photo.png", [3]⟩ : ImageFile).name ∧
    processExc envOk ⟨"photo.png", [1]⟩ 0 false = Except.ok ([1], [1]) ∧
    processExc envOk ⟨"photo.png", [3]⟩ 0 false = Except.ok ([3], [3]) ∧
    (runApp envOk "u2net" false [] ⟨[], 0⟩ [⟨"photo.png", [1]⟩, ⟨"photo.png", [3]⟩]).store =
      [("photo.png", ⟨"photo.png", [3], [3]⟩)] :=
  ⟨rfl, rfl, rfl, rfl,
    c4_duplicate_overwrite envOk "u2net" false [] ⟨[], 0⟩ ⟨"photo.png", [1]⟩
      ⟨"photo.png", [3]⟩ 0 ⟨[("u2net", 0)], 1⟩ ([1], [1]) ([3], [3]) rfl rfl rfl rfl⟩

/-- Claim C7: if resolving the model session fails, the batch run
leaves the store untouched, emits no per-item failure message and no
per-item progress update, and surfaces the fatal error; so zero items
are processed and the failure report is empty, with the fatal error
surfaced before any progress value is reported. -/
theorem c7_fatal_short_circuit (env : Env) (model : String) (alpha : Bool)
    (prev : ResultStore) (cache : CacheState) (files : List ImageFile) (e : String)
    (hne : files ≠ [])
    (hl : load_ai_session env model cache = Except.error e) :
    (runApp env model alpha prev cache files).store = prev ∧
    errorMessages (runApp env model alpha prev cache files).trace = [] ∧
    progressValues (runApp env model alpha prev cache files).trace = [] ∧
    (runApp env model alpha prev cache files).fatal = some e := by
  rw [runApp_fatal alpha prev hne hl]
  exact ⟨rfl, rfl, rfl, rfl⟩

/-- Witness for C7 at a concrete input: session construction fails for
every model in `envBadLoad`. -/
theorem c7_fatal_short_circuit_witness :
    ([fileA, fileB] : List ImageFile) ≠ [] ∧
    load_ai_session envBadLoad "u2net" ⟨[], 0⟩ = Except.error "no weights" ∧
    (runApp envBadLoad "u2net" false [] ⟨[], 0⟩ [fileA, fileB]).store = [] ∧
    errorMessages (runApp envBadLoad "u2net" false [] ⟨[], 0⟩ [fileA, fileB]).trace = [] ∧
    progressValues (runApp envBadLoad "u2net" false [] ⟨[], 0⟩ [fileA, fileB]).trace = [] ∧
    (runApp envBadLoad "u2net" false [] ⟨[], 0⟩ [fileA, fileB]).fatal = some "no weights" :=
  ⟨by decide, rfl,
    c7_fatal_short_circuit envBadLoad "u2net" false [] ⟨[], 0⟩ [fileA, fileB] "no weights"
      (by decide) rfl⟩

/-- Counterexample to claim C9 as stated: the archive byte stream is
not a function of the store contents and iteration order alone.  The
export block stamps every entry with the wall-clock time at which
`writestr` runs (CPython builds the `ZipInfo` with
`date_time=time.localtime(time.time())[:6]` when given a string name),
so two exports of the identical store at different times differ. -/
theorem c9_counterexample :
    exportArchive 0 [("a.png", ⟨"a.png", [1], [1]⟩)] ≠
      exportArchive 1 [("a.png", ⟨"a.png", [1], [1]⟩)] := by
  decide

/-- Claim C9 amended: archive export is deterministic given the store
contents, the iteration order and the export time; the entry names and
decompressed contents are deterministic given the store alone,
regardless of export time. -/
theorem c9_determinism (t1 t2 : Nat) (s1 s2 : ResultStore) (h : s1 = s2) :
    (exportArchive t1 s1).map (fun z => (z.entryName, z.data)) =
      (exportArchive t2 s2).map (fun z => (z.entryName, z.data)) ∧
    (t1 = t2 → exportArchive t1 s1 = exportArchive t2 s2) := by
  subst h
  constructor
  · simp [exportArchive, List.map_map]
  · intro ht
    rw [ht]

/-- Witness for C9 amended at a concrete input: exports at times 0 and
5 of the same store agree on entry names and contents. -/
theorem c9_determinism_witness :
    ([("a.png", (⟨"a.png", [1], [1]⟩ : ProcessedResult))] : ResultStore) =
      [("a.png", ⟨"a.png", [1], [1]⟩)] ∧
    (exportArchive 0 [("a.png", ⟨"a.png", [1], [1]⟩)]).map (fun z => (z.entryName, z.data)) =
      (exportArchive 5 [("a.png", ⟨"a.png", [1], [1]⟩)]).map (fun z => (z.entryName, z.data)) :=
  ⟨rfl, (c9_determinism 0 5 [("a.png", ⟨"a.png", [1], [1]⟩)]
    [("a.png", ⟨"a.png", [1], [1]⟩)] rfl).1⟩

/-- Claim C10: per-item processing returns either a fully successful
pair — both components present and the byte payload the PNG encoding of
the returned image — or `(None, None)`; consequently, after a batch run
with no fatal error, every stored entry has `original_name` equal to
its key and its byte payload equal to the PNG encoding of its stored
image. -/
theorem c10_result_invariant (env : Env) :
    (∀ (f : ImageFile) (s : Nat) (a : Bool),
        (process_single_image env f s a).1 = (none, none) ∨
        ∃ i b, (process_single_image env f s a).1 = (some i, some b) ∧
          env.encodePNG i = Except.ok b) ∧
    (∀ (model : String) (alpha : Bool) (prev : ResultStore) (cache : CacheState)
        (files : List ImageFile), files ≠ [] →
        (runApp env model alpha prev cache files).fatal = none →
        ∀ p ∈ (runApp env model alpha prev cache files).store,
          p.2.original_name = p.1 ∧ env.encodePNG p.2.image = Except.ok p.2.bytes) := by
  constructor
  · intro f s a
    rcases process_shape env f s a with ⟨h1, _⟩ | ⟨i, b, h1, _, h3⟩
    · left
      exact h1
    · right
      exact ⟨i, b, h1, h3⟩
  · intro model alpha prev cache files hne hfatal
    cases hl : load_ai_session env model cache with
    | error e =>
        rw [runApp_fatal alpha prev hne hl] at hfatal
        exact absurd hfatal (by simp)
    | ok r =>
        obtain ⟨s, cache1⟩ := r
        intro p hp
        rw [runApp_ok alpha prev hne hl] at hp
        exact batchLoop_good env s alpha files.length files 0 []
          (by intro q hq; simp at hq) p hp

/-- Witness for C10 at a concrete input: a one-file batch in `envOk`;
each stored entry satisfies the invariant. -/
theorem c10_result_invariant_witness :
    ([fileA] : List ImageFile) ≠ [] ∧
    (runApp envOk "u2net" false [] ⟨[], 0⟩ [fileA]).fatal = none ∧
    (∀ p ∈ (runApp envOk "u2net" false [] ⟨[], 0⟩ [fileA]).store,
        p.2.original_name = p.1 ∧ envOk.encodePNG p.2.image = Except.ok p.2.bytes) :=
  ⟨by decide, rfl,
    (c10_result_invariant envOk).2 "u2net" false [] ⟨[], 0⟩ [fileA] (by decide) rfl⟩

/-- Claim C5: cache identity.  In a well-formed cache state, two
sequential `load_ai_session` calls for the same model return the same
session handle, the second leaving the cache untouched (no
reconstruction); and sequential calls for two distinct models return
distinct session handles. -/
theorem c5_cache_identity (env : Env) (st : CacheState) (m m1 m2 : String)
    (s s2 sa sb : Nat) (st1 st2 ta tb : CacheState)
    (hwf : CacheWF st) (hne : m1 ≠ m2)
    (hg1 : load_ai_session env m st = Except.ok (s, st1))
    (hg2 : load_ai_session env m st1 = Except.ok (s2, st2))
    (ha : load_ai_session env m1 st = Except.ok (sa, ta))
    (hb : load_ai_session env m2 ta = Except.ok (sb, tb)) :
    (s2 = s ∧ st2 = st1) ∧ sa ≠ sb := by
  obtain ⟨hbound, hnd⟩ := hwf
  constructor
  · rcases load_inv hg1 with ⟨hf, rfl⟩ | ⟨hf, hlf, rfl, rfl⟩
    · rcases load_inv hg2 with ⟨hf2, rfl⟩ | ⟨hf2, hlf2, rfl, rfl⟩
      · rw [hf] at hf2
        injection hf2 with hf2
        exact ⟨hf2.symm, rfl⟩
      · rw [hf] at hf2
        cases hf2
    · have hsf := findSession_append_self st.nextId hf
      rcases load_inv hg2 with ⟨hf2, rfl⟩ | ⟨hf2, hlf2, hs2, rfl⟩
      · have hf2x : findSession m (st.entries ++ [(m, st.nextId)]) = some s2 := hf2
        rw [hsf] at hf2x
        injection hf2x with hf2x
        exact ⟨hf2x.symm, rfl⟩
      · have hf2x : findSession m (st.entries ++ [(m, st.nextId)]) = none := hf2
        rw [hsf] at hf2x
        cases hf2x
  · rcases load_inv ha with ⟨hfa, rfl⟩ | ⟨hfa, hlfa, rfl, rfl⟩
    · rcases load_inv hb with ⟨hfb, rfl⟩ | ⟨hfb, hlfb, hsb, rfl⟩
      · intro hsab
        have h1m := findSession_mem hfa
        have h2m := findSession_mem hfb
        rw [← hsab] at h2m
        exact hne (nodup_values_key_eq hnd h1m h2m)
      · have hlt := hbound _ (findSession_mem hfa)
        rw [hsb]
        exact Nat.ne_of_lt hlt
    · rcases load_inv hb with ⟨hfb, rfl⟩ | ⟨hfb, hlfb, hsb, rfl⟩
      · have hfbx : findSession m2 (st.entries ++ [(m1, st.nextId)]) = some sb := hfb
        rcases List.mem_append.mp (findSession_mem hfbx) with hm | hm
        · exact (Nat.ne_of_lt (hbound _ hm)).symm
        · have h21 := congrArg Prod.fst (List.mem_singleton.mp hm)
          exact absurd h21.symm hne
      · rw [hsb]
        show st.nextId ≠ (⟨st.entries ++ [(m1, st.nextId)], st.nextId + 1⟩ : CacheState).nextId
        simp

/-- Witness for C5 at a concrete input: from the empty cache, two gets
of `u2net` return handle 0 with no reconstruction; a get of `u2net`
followed by a get of `u2netp` returns handles 0 and 1, which differ. -/
theorem c5_cache_identity_witness :
    CacheWF ⟨[], 0⟩ ∧ ("u2net" : String) ≠ "u2netp" ∧
    load_ai_session envOk "u2net" ⟨[], 0⟩ = Except.ok (0, ⟨[("u2net", 0)], 1⟩) ∧
    load_ai_session envOk "u2net" ⟨[("u2net", 0)], 1⟩ =
      Except.ok (0, ⟨[("u2net", 0)], 1⟩) ∧
    load_ai_session envOk "u2netp" ⟨[("u2net", 0)], 1⟩ =
      Except.ok (1, ⟨[("u2net", 0), ("u2netp", 1)], 2⟩) ∧
    (((0 : Nat) = 0 ∧ (⟨[("u2net", 0)], 1⟩ : CacheState) = ⟨[("u2net", 0)], 1⟩) ∧
      (0 : Nat) ≠ 1) :=
  ⟨⟨by simp, by simp [CacheWF]⟩, by decide, rfl, rfl, rfl,
    c5_cache_identity envOk ⟨[], 0⟩ "u2net" "u2net" "u2netp" 0 0 0 1
      ⟨[("u2net", 0)], 1⟩ ⟨[("u2net", 0)], 1⟩ ⟨[("u2net", 0)], 1⟩
      ⟨[("u2net", 0), ("u2netp", 1)], 2⟩ ⟨by simp, by simp [CacheWF]⟩ (by decide)
      rfl rfl rfl rfl⟩

/-- Claim C6: for a batch of N items with no fatal model-load error,
the progress callback is invoked exactly N times, with the i-th value
equal to (i+1)/N (completed over total), the sequence non-decreasing,
and the final value equal to 1. -/
theorem c6_progress_monotone (env : Env) (model : String) (alpha : Bool)
    (prev : ResultStore) (cache : CacheState) (files : List ImageFile)
    (s : Nat) (cache1 : CacheState)
    (hne : files ≠ [])
    (hl : load_ai_session env model cache = Except.ok (s, cache1)) :
    progressValues (runApp env model alpha prev cache files).trace =
      (List.range files.length).map
        (fun (j : Nat) => ((j : ℚ) + 1) / (files.length : ℚ)) ∧
    (progressValues (runApp env model alpha prev cache files).trace).length =
      files.length ∧
    List.Pairwise (· ≤ ·)
      (progressValues (runApp env model alpha prev cache files).trace) ∧
    (progressValues (runApp env model alpha prev cache files).trace).getLast? =
      some 1 := by
  have hchar : progressValues (runApp env model alpha prev cache files).trace =
      (List.range files.length).map
        (fun (j : Nat) => ((j : ℚ) + 1) / (files.length : ℚ)) := by
    rw [runApp_ok alpha prev hne hl, progressValues_init_cons, progressValues_append,
      progressValues_successMsg, List.append_nil, batchLoop_progress]
    apply List.map_congr_left
    intro j hj
    push_cast
    ring
  refine ⟨hchar, ?_, ?_, ?_⟩
  · rw [hchar]
    simp
  · rw [hchar]
    have hpos : (0 : ℚ) < (files.length : ℚ) := by
      have := List.length_pos.mpr hne
      exact_mod_cast this
    refine List.Pairwise.map _ ?_ (List.pairwise_lt_range files.length)
    intro a b hab
    rw [div_le_div_iff_of_pos_right]
    · have : (a : ℚ) < (b : ℚ) := by exact_mod_cast hab
      linarith
    · exact hpos
  · obtain ⟨n, hn⟩ : ∃ n, files.length = n + 1 := by
      cases files with
      | nil => exact absurd rfl hne
      | cons f rest => exact ⟨rest.length, rfl⟩
    rw [hchar, hn, List.range_succ, List.map_append]
    simp only [List.map_cons, List.map_nil, List.getLast?_concat, Option.some.injEq]
    push_cast
    exact div_self (by positivity)

/-- Witness for C6 at a concrete input: a two-file batch in `envOk`
emits exactly the progress values 1/2 and 1. -/
theorem c6_progress_monotone_witness :
    ([fileA, fileB] : List ImageFile) ≠ [] ∧
    load_ai_session envOk "u2net" ⟨[], 0⟩ = Except.ok (0, ⟨[("u2net", 0)], 1⟩) ∧
    (progressValues (runApp envOk "u2net" false [] ⟨[], 0⟩ [fileA, fileB]).trace =
        (List.range ([fileA, fileB] : List ImageFile).length).map
          (fun (j : Nat) => ((j : ℚ) + 1) / (([fileA, fileB] : List ImageFile).length : ℚ)) ∧
      (progressValues (runApp envOk "u2net" false [] ⟨[], 0⟩ [fileA, fileB]).trace).length =
        ([fileA, fileB] : List ImageFile).length ∧
      List.Pairwise (· ≤ ·)
        (progressValues (runApp envOk "u2net" false [] ⟨[], 0⟩ [fileA, fileB]).trace) ∧
      (progressValues (runApp envOk "u2net" false [] ⟨[], 0⟩ [fileA, fileB]).trace).getLast? =
        some 1) :=
  ⟨by decide, rfl,
    c6_progress_monotone envOk "u2net" false [] ⟨[], 0⟩ [fileA, fileB] 0
      ⟨[("u2net", 0)], 1⟩ (by decide) rfl⟩

/-- Counterexample to claim C1 as stated: the failure report of a run
carries no `DecodeFailure` kind.  The run output (store, full UI trace,
fatal slot, cache) for a three-item batch whose second item fails to
DECODE in `envDecodeBad` is identical to the output for the same batch
whose second item decodes but fails SEGMENTATION in `envInferBad` with
the same exception text, so the report cannot be naming a failure kind;
it is the untagged message string of line 43.  The store and report
parts of the claim do hold, as the second and third conjuncts show. -/
theorem c1_kind_counterexample :
    runApp envDecodeBad "u2net" false [] ⟨[], 0⟩ [fileA, fileB, fileC] =
      runApp envInferBad "u2net" false [] ⟨[], 0⟩ [fileA, fileB, fileC] ∧
    errorMessages
        (runApp envDecodeBad "u2net" false [] ⟨[], 0⟩ [fileA, fileB, fileC]).trace =
      ["Error processing b.png: bad"] ∧
    (runApp envDecodeBad "u2net" false [] ⟨[], 0⟩ [fileA, fileB, fileC]).store =
      [("a.png", ⟨"a.png", [1], [1]⟩), ("c.png", ⟨"c.png", [3], [3]⟩)] :=
  ⟨rfl, rfl, rfl⟩

/-- Claim C1 amended: for a batch of three items where the second fails
to decode with exception text `e` and the first and third process
successfully, the run stores exactly the processed results of items 1
and 3 (the batch is not aborted), and the per-item failure report is
exactly one message naming item 2 with the decode exception text; the
report carries no structured failure kind. -/
theorem c1_isolation (env : Env) (model : String) (alpha : Bool) (prev : ResultStore)
    (cache : CacheState) (f1 f2 f3 : ImageFile) (s : Nat) (cache1 : CacheState)
    (r1 r3 : Image × Bytes) (e : String)
    (hl : load_ai_session env model cache = Except.ok (s, cache1))
    (h1 : processExc env f1 s alpha = Except.ok r1)
    (h2 : env.decode f2.content = Except.error e)
    (h3 : processExc env f3 s alpha = Except.ok r3)
    (hn : f1.name ≠ f3.name) :
    (runApp env model alpha prev cache [f1, f2, f3]).store =
      [(f1.name, ⟨f1.name, r1.1, r1.2⟩), (f3.name, ⟨f3.name, r3.1, r3.2⟩)] ∧
    errorMessages (runApp env model alpha prev cache [f1, f2, f3]).trace =
      ["Error processing " ++ f2.name ++ ": " ++ e] := by
  have h2x : processExc env f2 s alpha = Except.error e :=
    processExc_decode_error s alpha h2
  have e1 : stepStore env s alpha [] f1 = [(f1.name, ⟨f1.name, r1.1, r1.2⟩)] := by
    rw [stepStore_ok h1]
    rfl
  have e2 : stepStore env s alpha [(f1.name, ⟨f1.name, r1.1, r1.2⟩)] f2 =
      [(f1.name, ⟨f1.name, r1.1, r1.2⟩)] := stepStore_error h2x _
  have e3 : stepStore env s alpha [(f1.name, ⟨f1.name, r1.1, r1.2⟩)] f3 =
      [(f1.name, ⟨f1.name, r1.1, r1.2⟩), (f3.name, ⟨f3.name, r3.1, r3.2⟩)] := by
    rw [stepStore_ok h3]
    unfold storeInsert
    rw [if_neg (by simp [hn])]
    rfl
  rw [runApp_ok alpha prev (by simp) hl]
  rw [batchLoop_cons, e1, batchLoop_cons, e2, batchLoop_cons, e3, batchLoop_nil,
    process_eq_ok h1, process_eq_error h2x, process_eq_ok h3]
  exact ⟨rfl, rfl⟩

/-- Witness for C1 amended at a concrete input: the three-file batch of
`c1_kind_counterexample` in `envDecodeBad`. -/
theorem c1_isolation_witness :
    load_ai_session envDecodeBad "u2net" ⟨[], 0⟩ = Except.ok (0, ⟨[("u2net", 0)], 1⟩) ∧
    processExc envDecodeBad fileA 0 false = Except.ok ([1], [1]) ∧
    envDecodeBad.decode fileB.content = Except.error "bad" ∧
    processExc envDecodeBad fileC 0 false = Except.ok ([3], [3]) ∧
    fileA.name ≠ fileC.name ∧
    ((runApp envDecodeBad "u2net" false [] ⟨[], 0⟩ [fileA, fileB, fileC]).store =
        [(fileA.name, ⟨fileA.name, [1], [1]⟩), (fileC.name, ⟨fileC.name, [3], [3]⟩)] ∧
      errorMessages
          (runApp envDecodeBad "u2net" false [] ⟨[], 0⟩ [fileA, fileB, fileC]).trace =
        ["Error processing " ++ fileB.name ++ ": " ++ "bad"]) :=
  ⟨rfl, rfl, rfl, rfl, by decide,
    c1_isolation envDecodeBad "u2net" false [] ⟨[], 0⟩ fileA fileB fileC 0
      ⟨[("u2net", 0)], 1⟩ ([1], [1]) ([3], [3]) "bad" rfl rfl rfl rfl (by decide)⟩

/-- Counterexample to claim C8 as stated: the returned error does not
distinguish the two failure kinds.  A decode failure (in
`envDecodeBad`) and an inference failure (in `envInferBad`) with the
same exception text produce exactly the same return value and the same
emitted error message, namely `(None, None)` and the untagged string of
line 43, so no `DecodeFailure` / `InferenceFailure` tag exists in the
returned error. -/
theorem c8_kind_counterexample :
    process_single_image envDecodeBad fileB 0 false =
      process_single_image envInferBad fileB 0 false ∧
    process_single_image envDecodeBad fileB 0 false =
      ((none, none), [Event.errorMsg "Error processing b.png: bad"]) :=
  ⟨rfl, rfl⟩

/-- Claim C8 amended: per-item processing never raises past the batch
boundary: a decode failure with exception text `e` yields the return
value `(None, None)` together with an error message naming the item and
carrying `e`, and a segmentation failure yields exactly the same shape
of result; the two failure kinds are distinguishable only through the
exception text, not by any structured kind in the returned error. -/
theorem c8_error_isolation (env : Env) (f : ImageFile) (s : Nat) (a : Bool)
    (e : String) :
    (env.decode f.content = Except.error e →
        process_single_image env f s a =
          ((none, none),
            [Event.errorMsg ("Error processing " ++ f.name ++ ": " ++ e)])) ∧
    (∀ input, env.decode f.content = Except.ok input →
        env.segment s input a = Except.error e →
        process_single_image env f s a =
          ((none, none),
            [Event.errorMsg ("Error processing " ++ f.name ++ ": " ++ e)])) := by
  constructor
  · intro h
    exact process_eq_error (processExc_decode_error s a h)
  · intro input hd hs
    exact process_eq_error (processExc_segment_error hd hs)

/-- Witness for C8 amended at concrete inputs: the decode-failure case
in `envDecodeBad` and the segmentation-failure case in `envInferBad`. -/
theorem c8_error_isolation_witness :
    envDecodeBad.decode fileB.content = Except.error "bad" ∧
    process_single_image envDecodeBad fileB 0 false =
      ((none, none),
        [Event.errorMsg ("Error processing " ++ fileB.name ++ ": " ++ "bad")]) ∧
    envInferBad.decode fileB.content = Except.ok [2] ∧
    envInferBad.segment 0 [2] false = Except.error "bad" ∧
    process_single_image envInferBad fileB 0 false =
      ((none, none),
        [Event.errorMsg ("Error processing " ++ fileB.name ++ ": " ++ "bad")]) :=
  ⟨rfl, (c8_error_isolation envDecodeBad fileB 0 false "bad").1 rfl, rfl, rfl,
    (c8_error_isolation envInferBad fileB 0 false "bad").2 [2] rfl rfl⟩

end AppModel
